import Mathlib

/-!
Verification development for the menu repository (manager view `script.js`
and public view `items.js`).

The JavaScript under scrutiny is DOM/string glue over a JSON HTTP API.  The
definitions below shallowly embed the data-shaping functions of the two
files:

* the weight/unit-label extraction cascade inside `renderItem`
  (manager view, lines 278-361) and inside `displayCategoryItems`
  (public view, lines 131-176),
* `getFormData` (manager view, lines 43-88),
* `saveItem` (manager view, lines 112-156),
* `deleteItem` (manager view, lines 196-243),
* `getData` / `filterAndDisplayItems` (manager view, lines 403-471),
* `getNutritionalHighlight` (public view, lines 250-281),
* `createListings` / `createFilterButtons` (public view, lines 4-71).

Regular expressions are embedded as hand-specialised matchers on `List Char`.
Every regex in the source has the shape "greedy character class followed by a
literal outside that class", for which greedy matching without backtracking
is equivalent to JavaScript's backtracking semantics, and `String.match` /
`String.replace` (non-global) act on the leftmost match, embedded here by
trying each start position left to right.
-/

namespace Menu

/-- Character class of the JavaScript `\s` escape and of `String.prototype.trim`,
restricted to the ASCII whitespace characters (the Unicode space characters,
irrelevant to every string this program manipulates, are omitted). -/
def jsSpace (c : Char) : Bool :=
  c == ' ' || c == '\t' || c == '\n' || c == '\r' || c == '\x0b' || c == '\x0c'

/-- Greedy `\s*`: drop leading whitespace. -/
def skipSpaces (l : List Char) : List Char := l.dropWhile jsSpace

/-- Greedy `\s+`: requires at least one whitespace character, then drops the run. -/
def takeSpaces1 : List Char → Option (List Char)
  | [] => none
  | c :: cs => if jsSpace c then some (skipSpaces cs) else none

/-- Greedy `\d+`: the group of digits matched together with the rest of the input. -/
def takeDigits1 (l : List Char) : Option (List Char × List Char) :=
  let d := l.takeWhile Char.isDigit
  if d.isEmpty then none else some (d, l.dropWhile Char.isDigit)

/-- Character class `[\d.]`. -/
def digitDot (c : Char) : Bool := c.isDigit || c == '.'

/-- Greedy `[\d.]+`. -/
def takeNumDots (l : List Char) : Option (List Char × List Char) :=
  let d := l.takeWhile digitDot
  if d.isEmpty then none else some (d, l.dropWhile digitDot)

/-- Greedy `\d+\.?\d*` (the numeral group of the manager-view patterns): digits,
then an optional dot taken when present, then further digits. -/
def takeNum (l : List Char) : Option (List Char × List Char) :=
  match takeDigits1 l with
  | none => none
  | some (d1, r1) =>
    match r1 with
    | c :: r2 =>
      if c = '.' then some (d1 ++ '.' :: r2.takeWhile Char.isDigit, r2.dropWhile Char.isDigit)
      else some (d1, r1)
    | [] => some (d1, r1)

/-- Literal character (case sensitive). -/
def lit (c : Char) : List Char → Option (List Char)
  | [] => none
  | x :: xs => if x == c then some xs else none

/-- Literal character under the `i` flag: matches either of the two given cases. -/
def litCI (a b : Char) : List Char → Option (List Char)
  | [] => none
  | x :: xs => if x == a || x == b then some xs else none

/-- JavaScript `String.prototype.trim` on a character list. -/
def trimL (l : List Char) : List Char :=
  ((l.dropWhile jsSpace).reverse.dropWhile jsSpace).reverse

/-- JavaScript `String.prototype.trim`. -/
def trimStr (s : String) : String := String.mk (trimL s.toList)

/-- JavaScript `String.prototype.includes`: substring containment. -/
def jsIncludes (needle : List Char) : List Char → Bool
  | [] => needle.isEmpty
  | c :: t => List.isPrefixOf needle (c :: t) || jsIncludes needle t

/-- Leftmost-match search: try the matcher at every start position from the left;
on success return the prefix before the match, the matcher's captured groups and
the rest after the match (so that removing the match leaves `pre ++ rest`). -/
def searchWith {α : Type} (m : List Char → Option (α × List Char)) :
    List Char → Option (List Char × α × List Char)
  | [] =>
    match m [] with
    | some (a, r) => some ([], a, r)
    | none => none
  | c :: cs =>
    match m (c :: cs) with
    | some (a, r) => some ([], a, r)
    | none =>
      match searchWith m cs with
      | some (pre, a, r) => some (c :: pre, a, r)
      | none => none

/-! ### Manager-view weight patterns (script.js lines 286-361, all with the `i` flag) -/

/-- Pattern 1, `/(\d+\.?\d*)\s*fl\s*oz\s*cup\s*\(\d+\s*g\)/i`: group 1 is the fl-oz numeral. -/
def matchP1 (l : List Char) : Option (List Char × List Char) := do
  let (n, r) ← takeNum l
  let r ← litCI 'f' 'F' (skipSpaces r)
  let r ← litCI 'l' 'L' r
  let r ← litCI 'o' 'O' (skipSpaces r)
  let r ← litCI 'z' 'Z' r
  let r ← litCI 'c' 'C' (skipSpaces r)
  let r ← litCI 'u' 'U' r
  let r ← litCI 'p' 'P' r
  let r ← lit '(' (skipSpaces r)
  let (_, r) ← takeDigits1 r
  let r ← litCI 'g' 'G' (skipSpaces r)
  let r ← lit ')' r
  return (n, r)

/-- Pattern 2, `/\((\d+\.?\d*)\s*fl\s*oz\s*cup\)/i`. -/
def matchP2 (l : List Char) : Option (List Char × List Char) := do
  let r ← lit '(' l
  let (n, r) ← takeNum r
  let r ← litCI 'f' 'F' (skipSpaces r)
  let r ← litCI 'l' 'L' r
  let r ← litCI 'o' 'O' (skipSpaces r)
  let r ← litCI 'z' 'Z' r
  let r ← litCI 'c' 'C' (skipSpaces r)
  let r ← litCI 'u' 'U' r
  let r ← litCI 'p' 'P' r
  let r ← lit ')' r
  return (n, r)

/-- Pattern 3, `/(\d+\.?\d*)\s*fl\s*oz/i`. -/
def matchP3 (l : List Char) : Option (List Char × List Char) := do
  let (n, r) ← takeNum l
  let r ← litCI 'f' 'F' (skipSpaces r)
  let r ← litCI 'l' 'L' r
  let r ← litCI 'o' 'O' (skipSpaces r)
  let r ← litCI 'z' 'Z' r
  return (n, r)

/-- Pattern 4, `/(\d+\.?\d*)\s*oz\s*\((\d+)\s*g\)/i`: groups are (ounces, grams). -/
def matchP4 (l : List Char) : Option ((List Char × List Char) × List Char) := do
  let (n, r) ← takeNum l
  let r ← litCI 'o' 'O' (skipSpaces r)
  let r ← litCI 'z' 'Z' r
  let r ← lit '(' (skipSpaces r)
  let (m, r) ← takeDigits1 r
  let r ← litCI 'g' 'G' (skipSpaces r)
  let r ← lit ')' r
  return ((n, m), r)

/-- Pattern 5, `/\d+\s*cookie\s*\((\d+\.?\d*)\s*g\)/i`: group 1 is the grams numeral. -/
def matchP5 (l : List Char) : Option (List Char × List Char) := do
  let (_, r) ← takeDigits1 l
  let r ← litCI 'c' 'C' (skipSpaces r)
  let r ← litCI 'o' 'O' r
  let r ← litCI 'o' 'O' r
  let r ← litCI 'k' 'K' r
  let r ← litCI 'i' 'I' r
  let r ← litCI 'e' 'E' r
  let r ← lit '(' (skipSpaces r)
  let (m, r) ← takeNum r
  let r ← litCI 'g' 'G' (skipSpaces r)
  let r ← lit ')' r
  return (m, r)

/-- Pattern 6, `/\(?\s*(\d+\.?\d*)\s*g\s*\)?/i`.  The optional parentheses are
taken greedily when present; not taking a present `(` can never rescue a failed
attempt because `\s*` and `\d` both reject `(`. -/
def matchP6 (l : List Char) : Option (List Char × List Char) := do
  let r0 := match l with | '(' :: xs => xs | _ => l
  let (n, r) ← takeNum (skipSpaces r0)
  let r ← litCI 'g' 'G' (skipSpaces r)
  let r := skipSpaces r
  let r := match r with | ')' :: xs => xs | _ => r
  return (n, r)

/-- Extracted quantity as displayed by the item card (`weightInfo`). -/
inductive Qty where
  | none : Qty
  | flOz (n : String) : Qty
  | oz (n : String) : Qty
  | g (n : String) : Qty
deriving DecidableEq, Repr

/-- Beverage-like category test of script.js lines 331 and 353. -/
def beverageLike (category : String) : Bool :=
  category == "DESSERTSHAKE" || category == "CONDIMENT" || category == "BEVERAGE"

/-- Weight-parsing cascade of `renderItem` (script.js lines 278-361): first
matching pattern wins, the match is removed from the name and the result is
trimmed; pattern 6 only runs for non-beverage-like categories; when nothing
matches the name is left untouched and no quantity is reported. -/
def renderItemWeight (category itemName : String) : String × Qty :=
  let l := itemName.toList
  match searchWith matchP1 l with
  | some (pre, n, rest) => (String.mk (trimL (pre ++ rest)), Qty.flOz (String.mk n))
  | none =>
  match searchWith matchP2 l with
  | some (pre, n, rest) => (String.mk (trimL (pre ++ rest)), Qty.flOz (String.mk n))
  | none =>
  match searchWith matchP3 l with
  | some (pre, n, rest) => (String.mk (trimL (pre ++ rest)), Qty.flOz (String.mk n))
  | none =>
  match searchWith matchP4 l with
  | some (pre, (n, m), rest) =>
    (String.mk (trimL (pre ++ rest)),
     if beverageLike category then Qty.oz (String.mk n) else Qty.g (String.mk m))
  | none =>
  match searchWith matchP5 l with
  | some (pre, m, rest) => (String.mk (trimL (pre ++ rest)), Qty.g (String.mk m))
  | none =>
  if beverageLike category then (itemName, Qty.none)
  else
    match searchWith matchP6 l with
    | some (pre, m, rest) => (String.mk (trimL (pre ++ rest)), Qty.g (String.mk m))
    | none => (itemName, Qty.none)

/-! ### Public-view weight patterns (items.js lines 137-174, case sensitive,
all anchored at the end of the string with `$`) -/

/-- Pattern `/\s*([\d.]+)\s*oz\s*\((\d+)\s*g\)\s*$/`: groups are (ounces, grams). -/
def matchQ1 (l : List Char) : Option ((List Char × List Char) × List Char) := do
  let (oz, r) ← takeNumDots (skipSpaces l)
  let r ← lit 'o' (skipSpaces r)
  let r ← lit 'z' r
  let r ← lit '(' (skipSpaces r)
  let (g, r) ← takeDigits1 r
  let r ← lit 'g' (skipSpaces r)
  let r ← lit ')' r
  match skipSpaces r with
  | [] => return ((oz, g), ([] : List Char))
  | _ => none

/-- Pattern `/\s*\((\d+)\s*g\)\s*$/`. -/
def matchQ2 (l : List Char) : Option (List Char × List Char) := do
  let r ← lit '(' (skipSpaces l)
  let (g, r) ← takeDigits1 r
  let r ← lit 'g' (skipSpaces r)
  let r ← lit ')' r
  match skipSpaces r with
  | [] => return (g, ([] : List Char))
  | _ => none

/-- Pattern `/\s+(\d+)\s*g\s*$/`. -/
def matchQ3 (l : List Char) : Option (List Char × List Char) := do
  let r ← takeSpaces1 l
  let (g, r) ← takeDigits1 r
  let r ← lit 'g' (skipSpaces r)
  match skipSpaces r with
  | [] => return (g, ([] : List Char))
  | _ => none

/-- Pattern `/\s*\(([\d.]+)\s*oz\)\s*$/`. -/
def matchQ4 (l : List Char) : Option (List Char × List Char) := do
  let r ← lit '(' (skipSpaces l)
  let (oz, r) ← takeNumDots r
  let r ← lit 'o' (skipSpaces r)
  let r ← lit 'z' r
  let r ← lit ')' r
  match skipSpaces r with
  | [] => return (oz, ([] : List Char))
  | _ => none

/-- Pattern `/\s+([\d.]+)\s*oz\s*$/`. -/
def matchQ5 (l : List Char) : Option (List Char × List Char) := do
  let r ← takeSpaces1 l
  let (oz, r) ← takeNumDots r
  let r ← lit 'o' (skipSpaces r)
  let r ← lit 'z' r
  match skipSpaces r with
  | [] => return (oz, ([] : List Char))
  | _ => none

/-- Weight-parsing cascade of `displayCategoryItems` (items.js lines 131-176):
returns `(cleanedName, grams, ounces)`, the empty string standing for a group
the cascade did not set; the ounce patterns 4 and 5 are only tried when no
gram group was found, mirroring the `if (!grams)` gate. -/
def displayItemWeight (itemText : String) : String × String × String :=
  let l := itemText.toList
  match searchWith matchQ1 l with
  | some (pre, (oz, g), rest) => (String.mk (pre ++ rest), String.mk g, String.mk oz)
  | none =>
  match searchWith matchQ2 l with
  | some (pre, g, rest) => (String.mk (pre ++ rest), String.mk g, "")
  | none =>
  match searchWith matchQ3 l with
  | some (pre, g, rest) => (String.mk (pre ++ rest), String.mk g, "")
  | none =>
  match searchWith matchQ4 l with
  | some (pre, oz, rest) => (String.mk (pre ++ rest), "", String.mk oz)
  | none =>
  match searchWith matchQ5 l with
  | some (pre, oz, rest) => (String.mk (pre ++ rest), "", String.mk oz)
  | none => (itemText, "", "")

/-- Quantity as actually displayed by the public listing template
(items.js lines 181-182): the gram badge is shown when `grams` is truthy,
the ounce badge when `ounces` is truthy and `grams` is not. -/
def displayItemQty (itemText : String) : Qty :=
  let r := displayItemWeight itemText
  if r.2.1 ≠ "" then Qty.g r.2.1
  else if r.2.2 ≠ "" then Qty.oz r.2.2
  else Qty.none

/-! ### When no pattern matches, both cascades are the identity -/

/-- Decides whether any pattern of the manager cascade fires on `s` for the
given category (pattern 6 is gated behind the category test, as in the code). -/
def managerHasMatch (category s : String) : Bool :=
  (searchWith matchP1 s.toList).isSome || (searchWith matchP2 s.toList).isSome ||
  (searchWith matchP3 s.toList).isSome || (searchWith matchP4 s.toList).isSome ||
  (searchWith matchP5 s.toList).isSome ||
  (!beverageLike category && (searchWith matchP6 s.toList).isSome)

/-- Decides whether any pattern of the public cascade fires on `s`. -/
def publicHasMatch (s : String) : Bool :=
  (searchWith matchQ1 s.toList).isSome || (searchWith matchQ2 s.toList).isSome ||
  (searchWith matchQ3 s.toList).isSome || (searchWith matchQ4 s.toList).isSome ||
  (searchWith matchQ5 s.toList).isSome

/-- The head of `l` (if any) falsifies `p`. -/
def headFails (p : Char → Bool) : List Char → Prop
  | [] => True
  | c :: _ => p c = false

/-- The numeral shape accepted wholly by `\d+\.?\d*`: either digits, or digits,
a dot and further digits. -/
def IsNumeral (N : List Char) : Prop :=
  ∃ d1 d2, d1 ≠ [] ∧ (∀ c ∈ d1, c.isDigit = true) ∧ (∀ c ∈ d2, c.isDigit = true) ∧
    (N = d1 ∨ N = d1 ++ '.' :: d2)

/-! ### JavaScript values and object-like association lists -/

/-- The JSON-ish values `getFormData` produces: a string, a boolean, or `null`. -/
inductive JSVal where
  | str (s : String)
  | bool (b : Bool)
  | null
deriving DecidableEq, Repr

/-- JavaScript truthiness of an optional property value (`undefined`, `null`,
`false` and `""` are falsy). -/
def jsTruthy : Option JSVal → Bool
  | Option.none => false
  | some (JSVal.str s) => s != ""
  | some (JSVal.bool b) => b
  | some JSVal.null => false

/-- String interpolation / coercion of a value, as in a template literal. -/
def jsValToString : JSVal → String
  | JSVal.str s => s
  | JSVal.bool true => "true"
  | JSVal.bool false => "false"
  | JSVal.null => "null"

/-- Property read on an object modelled as an association list
(`Option.none` plays the role of `undefined`). -/
def alookup {β : Type} : List (String × β) → String → Option β
  | [], _ => Option.none
  | (k', v) :: rest, k => if k' = k then some v else alookup rest k

/-- Property assignment on an object modelled as an association list:
overwrite in place, or append a fresh key (JavaScript object insertion order;
all keys in this program are non-numeric strings). -/
def setKey {β : Type} : List (String × β) → String → β → List (String × β)
  | [], k, v => [(k, v)]
  | (k', v') :: rest, k, v =>
    if k' = k then (k', v) :: rest else (k', v') :: setKey rest k v

/-! ### `getFormData` (script.js lines 43-88) -/

/-- An `<input>` element: its name, `type` attribute, current string value and
checked state. -/
structure FormInput where
  name : String
  ty : String
  value : String
  checked : Bool
deriving DecidableEq, Repr

/-- A `<select>` element: its name and currently selected value. -/
structure SelectInput where
  name : String
  value : String
deriving DecidableEq, Repr

/-- The form `#myForm`: its inputs and selects. -/
structure FormState where
  inputs : List FormInput
  selects : List SelectInput
deriving DecidableEq, Repr

/-- The entry list of `new FormData(myForm)`: every named control contributes
its string value, except checkboxes, which contribute only while checked. -/
def formDataEntries (f : FormState) : List (String × JSVal) :=
  (f.inputs.filter (fun el => el.ty != "checkbox" || el.checked)).map
      (fun el => (el.name, JSVal.str el.value))
    ++ f.selects.map (fun el => (el.name, JSVal.str el.value))

/-- `Object.fromEntries`: later entries for the same key overwrite earlier ones. -/
def fromEntries (entries : List (String × JSVal)) : List (String × JSVal) :=
  entries.foldl (fun m e => setKey m e.1 e.2) []

/-- Blank test on a plain string: empty or whitespace-only. -/
def blankStr (s : String) : Bool := s == "" || trimStr s == ""

/-- The emptiness test `!value || value.trim() === ''` of script.js line 58
(and line 82), on an optional property value. -/
def jsFalsyOrBlank : Option JSVal → Bool
  | Option.none => true
  | some JSVal.null => true
  | some (JSVal.bool b) => !b
  | some (JSVal.str s) => s == "" || trimStr s == ""

/-- Modelled behaviour of `new Date(s).toISOString()` on a date-input value
`s` in `yyyy-mm-dd` form: such strings parse as UTC midnight. -/
def dateToISOString (s : String) : String := s ++ "T00:00:00.000Z"

/-- One step of the `myForm.querySelectorAll('input').forEach` loop of
script.js lines 50-77: hidden inputs are skipped, checkboxes become their
boolean checked state, number/range inputs keep their string value or become
`null` when blank, date inputs become an ISO-8601 string or `null` when blank,
and blank text inputs become `null`. -/
def processInput (m : List (String × JSVal)) (el : FormInput) : List (String × JSVal) :=
  if el.ty == "hidden" then m
  else
    let value := alookup m el.name
    let isEmpty := jsFalsyOrBlank value
    if el.ty == "checkbox" then setKey m el.name (JSVal.bool el.checked)
    else if el.ty == "number" || el.ty == "range" then
      setKey m el.name (if isEmpty then JSVal.null else value.getD JSVal.null)
    else if el.ty == "date" then
      setKey m el.name
        (if isEmpty then JSVal.null
         else JSVal.str (dateToISOString (jsValToString (value.getD JSVal.null))))
    else if isEmpty && el.ty == "text" then setKey m el.name JSVal.null
    else m

/-- One step of the `myForm.querySelectorAll('select').forEach` loop of
script.js lines 80-85: a blank select becomes `null`. -/
def processSelect (m : List (String × JSVal)) (el : SelectInput) : List (String × JSVal) :=
  if jsFalsyOrBlank (alookup m el.name) then setKey m el.name JSVal.null else m

/-- `getFormData` (script.js lines 43-88): the `FormData` baseline, then the
input pass, then the select pass. -/
def getFormData (f : FormState) : List (String × JSVal) :=
  f.selects.foldl processSelect (f.inputs.foldl processInput (fromEntries (formDataEntries f)))

/-! ### `saveItem` routing and outcome (script.js lines 112-156) -/

/-- An HTTP request as issued by `fetch`: method and endpoint. -/
structure Request where
  method : String
  url : String
deriving DecidableEq, Repr

/-- The endpoint/method routing of `saveItem` (script.js lines 116-117):
`data.id ? PUT /data/{id} : POST /data`, on JavaScript truthiness of `id`. -/
def saveItemRequest (data : List (String × JSVal)) : Request :=
  if jsTruthy (alookup data "id") then
    { method := "PUT", url := "/data/" ++ jsValToString ((alookup data "id").getD JSVal.null) }
  else
    { method := "POST", url := "/data" }

/-- The four ways the save request can come back: success, a non-ok response
with a parsable JSON body, a non-ok response whose body fails to parse, or a
rejected request (transport failure). -/
inductive SaveResponse where
  | ok (body : List (String × JSVal))
  | errJson (statusText : String) (errBody : List (String × JSVal))
  | errNoJson (statusText : String)
  | reject
deriving DecidableEq, Repr

/-- The user-visible outcome of `saveItem`: at most one blocking alert, at most
one toast notification, and whether `getData()` was invoked to refresh the list. -/
structure SaveOutcome where
  alert : Option String
  toast : Option String
  refreshed : Bool
deriving DecidableEq, Repr

/-- Response handling of `saveItem` (script.js lines 128-156). -/
def saveOutcome : SaveResponse → SaveOutcome
  | SaveResponse.ok _ =>
    { alert := Option.none, toast := some "Menu item saved successfully!", refreshed := true }
  | SaveResponse.errJson statusText errBody =>
    let d := alookup errBody "details"
    let e := alookup errBody "error"
    let errorMessage :=
      if jsTruthy d then jsValToString (d.getD JSVal.null)
      else if jsTruthy e then jsValToString (e.getD JSVal.null)
      else statusText
    { alert := some ("Failed to save: " ++ errorMessage), toast := Option.none, refreshed := false }
  | SaveResponse.errNoJson statusText =>
    { alert := some ("Failed to save: " ++ statusText), toast := Option.none, refreshed := false }
  | SaveResponse.reject =>
    { alert := some "An error occurred while saving", toast := Option.none, refreshed := false }

/-! ### Manager-view state: `getData`, `filterAndDisplayItems`
(script.js lines 403-471) -/

/-- A menu item record.  Per the data model only `ITEM` and `CATEGORY` are
guaranteed present; `id` is server-assigned and the nutrition fields are
numeric strings or absent. -/
structure MenuItem where
  id : Option String
  ITEM : String
  CATEGORY : String
  CAL : Option String
  FAT : Option String
  SFAT : Option String
  TFAT : Option String
  CHOL : Option String
  SALT : Option String
  CARB : Option String
  FBR : Option String
  SGR : Option String
  PRO : Option String
deriving DecidableEq, Repr

/-- What `#contentArea` currently shows. -/
inductive ContentView where
  | unset
  | noData
  | noMatches
  | cards (items : List MenuItem)
  | couldNotConnect
  | errorLoading
deriving DecidableEq, Repr

/-- Manager-view page state: the global `allItems`, the two filter controls,
the content area and the create button. -/
structure ManagerState where
  allItems : List MenuItem
  searchInput : String
  categoryFilter : String
  content : ContentView
  createButtonVisible : Bool
deriving DecidableEq, Repr

/-- `filterAndDisplayItems` (script.js lines 408-435): recompute the visible
subset from `allItems` and fully re-render the content area. -/
def filterAndDisplayItems (st : ManagerState) : ManagerState :=
  let searchTerm := trimStr st.searchInput.toLower
  let selectedCategory := st.categoryFilter
  let filteredItems := st.allItems.filter (fun item =>
    (searchTerm == "" ||
      (item.ITEM != "" && jsIncludes searchTerm.toList item.ITEM.toLower.toList)) &&
    (selectedCategory == "" || item.CATEGORY == selectedCategory))
  { st with
    content := if filteredItems.isEmpty then ContentView.noMatches
               else ContentView.cards filteredItems }

/-- Outcome of the `fetch('/data')` in `getData`. -/
inductive FetchResult where
  | ok (data : List MenuItem)
  | httpError
  | networkError
deriving DecidableEq, Repr

/-- `getData` (script.js lines 442-471).  Note that the empty-data branch
returns before `allItems` is reassigned. -/
def getData (st : ManagerState) (r : FetchResult) : ManagerState :=
  match r with
  | FetchResult.ok data =>
    if data.length == 0 then { st with content := ContentView.noData }
    else filterAndDisplayItems { st with allItems := data }
  | FetchResult.httpError =>
    { st with createButtonVisible := false, content := ContentView.couldNotConnect }
  | FetchResult.networkError =>
    { st with content := ContentView.errorLoading }

/-- `saveItem` itself leaves the in-memory `allItems` untouched; on success the
refresh happens through a separate `getData` call, recorded by the `refreshed`
flag of the outcome. -/
def saveItemStep (st : ManagerState) (resp : SaveResponse) : ManagerState × SaveOutcome :=
  (st, saveOutcome resp)

/-- A concrete record used by several distinct witnesses and counterexamples. -/
def sampleItem : MenuItem :=
  { id := some "1", ITEM := "Big Mac", CATEGORY := "BURGERSANDWICH",
    CAL := some "590", FAT := some "34", SFAT := Option.none, TFAT := Option.none,
    CHOL := Option.none, SALT := Option.none, CARB := some "46", FBR := some "3",
    SGR := some "9", PRO := some "25" }

/-- A concrete manager-view state holding one item. -/
def sampleState : ManagerState :=
  { allItems := [sampleItem], searchInput := "", categoryFilter := "",
    content := ContentView.unset, createButtonVisible := true }

/-- A concrete well-formed form with one field of each kind. -/
def wForm : FormState :=
  { inputs := [
      { name := "id", ty := "hidden", value := "", checked := false },
      { name := "ITEM", ty := "text", value := "Big Mac", checked := false },
      { name := "CAL", ty := "number", value := "", checked := false },
      { name := "featured", ty := "checkbox", value := "on", checked := true },
      { name := "released", ty := "date", value := "2024-01-15", checked := false } ],
    selects := [{ name := "CATEGORY", value := "" }] }

/-! ### `deleteItem` (script.js lines 196-243) -/

/-- State of one pending deletion: the modal, whether the confirm/cancel
listeners are attached, and the accumulated observable effects. -/
structure DeleteFlowState where
  modalShown : Bool
  listenersAttached : Bool
  requests : List Request
  toasts : List String
  alerts : List String
  refreshes : Nat
deriving DecidableEq, Repr

/-- Invoking `deleteItem(id)`: show the modal and attach the two listeners;
no request is issued. -/
def deleteItemInvoke (s : DeleteFlowState) : DeleteFlowState :=
  { s with modalShown := true, listenersAttached := true }

/-- Outcome of the DELETE request issued on confirmation. -/
inductive DeleteResponse where
  | ok
  | errJson (errBody : List (String × JSVal))
  | reject
deriving DecidableEq, Repr

/-- `handleConfirm` (script.js lines 205-231): hide the modal, remove both
listeners, issue `DELETE /data/{id}`, then toast-and-refresh on success or
alert on failure. -/
def handleConfirm (id : String) (resp : DeleteResponse) (s : DeleteFlowState) :
    DeleteFlowState :=
  let s1 := { s with modalShown := false, listenersAttached := false }
  let s2 := { s1 with
    requests := s1.requests ++ [({ method := "DELETE", url := "/data/" ++ id } : Request)] }
  match resp with
  | DeleteResponse.ok =>
    { s2 with toasts := s2.toasts ++ ["Item deleted successfully"],
              refreshes := s2.refreshes + 1 }
  | DeleteResponse.errJson errBody =>
    let e := alookup errBody "error"
    let msg := if jsTruthy e then jsValToString (e.getD JSVal.null) else "Failed to delete item"
    { s2 with alerts := s2.alerts ++ [msg] }
  | DeleteResponse.reject =>
    { s2 with alerts := s2.alerts ++ ["An error occurred while deleting"] }

/-- `handleCancel` (script.js lines 234-238): hide the modal and remove both
listeners; nothing else happens. -/
def handleCancel (s : DeleteFlowState) : DeleteFlowState :=
  { s with modalShown := false, listenersAttached := false }

/-! ### `getNutritionalHighlight` (items.js lines 250-281) -/

/-- Decimal value of a digit list. -/
def digitsToNat (l : List Char) : Nat :=
  l.foldl (fun n c => n * 10 + (c.toNat - '0'.toNat)) 0

/-- Hexadecimal digit class. -/
def isHexDigitCh (c : Char) : Bool :=
  c.isDigit || ('a' ≤ c && c ≤ 'f') || ('A' ≤ c && c ≤ 'F')

/-- Value of one hexadecimal digit. -/
def hexVal (c : Char) : Nat :=
  if c.isDigit then c.toNat - '0'.toNat
  else if 'a' ≤ c && c ≤ 'f' then c.toNat - 'a'.toNat + 10
  else c.toNat - 'A'.toNat + 10

/-- Hexadecimal value of a hex-digit list. -/
def hexToNat (l : List Char) : Nat :=
  l.foldl (fun n c => n * 16 + hexVal c) 0

/-- JavaScript `parseInt(s)` with no radix argument: skip leading whitespace,
an optional sign, then either a `0x`/`0X` hexadecimal literal or a decimal
digit run, stopping at the first non-digit; `Option.none` models `NaN`. -/
def jsParseInt (s : String) : Option Int :=
  let l := skipSpaces s.toList
  let signAndRest : Int × List Char :=
    match l with
    | '-' :: t => (-1, t)
    | '+' :: t => (1, t)
    | _ => (1, l)
  let sign := signAndRest.1
  let l1 := signAndRest.2
  match l1 with
  | '0' :: x :: t =>
    if x == 'x' || x == 'X' then
      let h := t.takeWhile isHexDigitCh
      if h.isEmpty then Option.none else some (sign * (hexToNat h : Int))
    else
      let d := l1.takeWhile Char.isDigit
      if d.isEmpty then Option.none else some (sign * (digitsToNat d : Int))
  | _ =>
    let d := l1.takeWhile Char.isDigit
    if d.isEmpty then Option.none else some (sign * (digitsToNat d : Int))

/-- `parseInt(field) || 0` on an optional nutrition field: an absent or null
field parses to `NaN` and `NaN || 0` is `0`, while `0 || 0` is `0`. -/
def parseIntOr0 (f : Option String) : Int :=
  match f with
  | Option.none => 0
  | some s => (jsParseInt s).getD 0

/-- `getNutritionalHighlight` (items.js lines 250-281): only the highlight tied
to the active filter is produced, and only when its metric crosses the
threshold; no active filter (or an unknown one) produces nothing. -/
def getNutritionalHighlight (item : MenuItem) (activeFilter : Option String) : String :=
  match activeFilter with
  | Option.none => ""
  | some af =>
    if af == "" then ""
    else
      let protein := parseIntOr0 item.PRO
      let fiber := parseIntOr0 item.FBR
      let carbs := parseIntOr0 item.CARB
      let sugar := parseIntOr0 item.SGR
      let calories := parseIntOr0 item.CAL
      if af == "high-protein" then
        if protein ≥ 20 then toString protein ++ "g protein" else ""
      else if af == "gut-friendly" then
        if fiber ≥ 5 then toString fiber ++ "g fiber" else ""
      else if af == "low-carb" then
        if carbs ≤ 20 then toString carbs ++ "g carbs" else ""
      else if af == "low-sugar" then
        if sugar ≤ 10 then toString sugar ++ "g sugar" else ""
      else if af == "calorie-conscious" then
        if calories ≤ 400 then toString calories ++ " cal" else ""
      else ""

/-! ### `createListings` / `createFilterButtons` (items.js lines 4-71) -/

/-- One step of the grouping loop of `createListings` (items.js lines 8-14):
create the bucket on first sight of a category, then push the item. -/
def addToBucket : List (String × List MenuItem) → String → MenuItem →
    List (String × List MenuItem)
  | [], k, it => [(k, [it])]
  | (k', b) :: rest, k, it =>
    if k' = k then (k', b ++ [it]) :: rest else (k', b) :: addToBucket rest k it

/-- The `categories` object of `createListings`: items grouped by their
`CATEGORY` field, buckets in first-occurrence order, items in input order. -/
def groupByCategory (menuItems : List MenuItem) : List (String × List MenuItem) :=
  menuItems.foldl (fun cats it => addToBucket cats it.CATEGORY it) []

/-- What `createListings` renders: the `categories` buckets, the per-category
filter buttons (one per non-empty bucket, items.js lines 52-61), and the
per-category sections (one per non-empty bucket, items.js lines 25-29). -/
structure PublicRender where
  buckets : List (String × List MenuItem)
  filterButtons : List String
  sections : List (String × List MenuItem)
deriving DecidableEq, Repr

/-- `createListings` (items.js lines 4-30) together with the button loop of
`createFilterButtons` (items.js lines 52-61). -/
def createListings (menuItems : List MenuItem) : PublicRender :=
  let categories := groupByCategory menuItems
  { buckets := categories
    filterButtons := (categories.filter (fun kv => kv.2.length > 0)).map (fun kv => kv.1)
    sections := categories.filter (fun kv => kv.2.length > 0) }

theorem renderItemWeight_of_noMatch (category s : String)
    (h : managerHasMatch category s = false) :
    renderItemWeight category s = (s, Qty.none) := by
  have h1 : searchWith matchP1 s.toList = none := by
    cases hx : searchWith matchP1 s.toList with
    | none => rfl
    | some v => rw [managerHasMatch, hx] at h; simp at h
  have h2 : searchWith matchP2 s.toList = none := by
    cases hx : searchWith matchP2 s.toList with
    | none => rfl
    | some v => rw [managerHasMatch, hx] at h; simp at h
  have h3 : searchWith matchP3 s.toList = none := by
    cases hx : searchWith matchP3 s.toList with
    | none => rfl
    | some v => rw [managerHasMatch, hx] at h; simp at h
  have h4 : searchWith matchP4 s.toList = none := by
    cases hx : searchWith matchP4 s.toList with
    | none => rfl
    | some v => rw [managerHasMatch, hx] at h; simp at h
  have h5 : searchWith matchP5 s.toList = none := by
    cases hx : searchWith matchP5 s.toList with
    | none => rfl
    | some v => rw [managerHasMatch, hx] at h; simp at h
  rw [renderItemWeight, h1, h2, h3, h4, h5]
  cases hb : beverageLike category with
  | true => simp
  | false =>
    have h6 : searchWith matchP6 s.toList = none := by
      cases hx : searchWith matchP6 s.toList with
      | none => rfl
      | some v => rw [managerHasMatch, hx, hb] at h; simp at h
    rw [h6]
    simp

theorem displayItemWeight_of_noMatch (s : String)
    (h : publicHasMatch s = false) :
    displayItemWeight s = (s, "", "") := by
  have h1 : searchWith matchQ1 s.toList = none := by
    cases hx : searchWith matchQ1 s.toList with
    | none => rfl
    | some v => rw [publicHasMatch, hx] at h; simp at h
  have h2 : searchWith matchQ2 s.toList = none := by
    cases hx : searchWith matchQ2 s.toList with
    | none => rfl
    | some v => rw [publicHasMatch, hx] at h; simp at h
  have h3 : searchWith matchQ3 s.toList = none := by
    cases hx : searchWith matchQ3 s.toList with
    | none => rfl
    | some v => rw [publicHasMatch, hx] at h; simp at h
  have h4 : searchWith matchQ4 s.toList = none := by
    cases hx : searchWith matchQ4 s.toList with
    | none => rfl
    | some v => rw [publicHasMatch, hx] at h; simp at h
  have h5 : searchWith matchQ5 s.toList = none := by
    cases hx : searchWith matchQ5 s.toList with
    | none => rfl
    | some v => rw [publicHasMatch, hx] at h; simp at h
  rw [displayItemWeight, h1, h2, h3, h4, h5]

/-- C1.  The claim as stated is false: weight extraction is not idempotent on
every name.  For the manager cascade, the name `"12 fl oz (340 g)"` (category
`SNACKSIDE`) is cleaned to `"(340 g)"` by pattern 3, and a second application
fires pattern 6 on that cleaned name, changing it again and reporting a further
quantity.  For the public cascade, `"Hamburger 100 g 4 oz"` is cleaned to
`"Hamburger 100 g"` by the trailing-ounces pattern, and a second application
fires the trailing-grams pattern on the cleaned name. -/
theorem C1_counterexample :
    (renderItemWeight "SNACKSIDE" ((renderItemWeight "SNACKSIDE" "12 fl oz (340 g)").1) ≠
      ((renderItemWeight "SNACKSIDE" "12 fl oz (340 g)").1, Qty.none)) ∧
    (displayItemWeight ((displayItemWeight "Hamburger 100 g 4 oz").1) ≠
      ((displayItemWeight "Hamburger 100 g 4 oz").1, "", "")) := by
  decide

/-- C1 (amended).  Both extractors are total functions (they never throw), and
re-running an extractor on a cleaned name is a no-op exactly on those cleaned
names on which no pattern of the cascade fires: in that case the name is left
unchanged and no further quantity is found.  Idempotence fails in general, as
the cleaned name can itself still contain a quantity pattern. -/
theorem C1_extraction_idempotent_when_clean (category name : String) :
    (managerHasMatch category (renderItemWeight category name).1 = false →
      renderItemWeight category ((renderItemWeight category name).1) =
        ((renderItemWeight category name).1, Qty.none)) ∧
    (publicHasMatch (displayItemWeight name).1 = false →
      displayItemWeight ((displayItemWeight name).1) =
        ((displayItemWeight name).1, "", "")) :=
  ⟨fun h => renderItemWeight_of_noMatch _ _ h,
   fun h => displayItemWeight_of_noMatch _ h⟩

/-- Witness for `C1_extraction_idempotent_when_clean`: on
`"Egg McMuffin (135 g)"` (manager, category `BREAKFAST`, cleaned to
`"Egg McMuffin"`) and `"Apple Pie (250 g)"` (public, cleaned to `"Apple Pie"`)
the hypotheses hold and the second application is a no-op. -/
theorem C1_extraction_idempotent_when_clean_witness :
    (managerHasMatch "BREAKFAST" (renderItemWeight "BREAKFAST" "Egg McMuffin (135 g)").1 = false ∧
      renderItemWeight "BREAKFAST" ((renderItemWeight "BREAKFAST" "Egg McMuffin (135 g)").1) =
        ((renderItemWeight "BREAKFAST" "Egg McMuffin (135 g)").1, Qty.none)) ∧
    (publicHasMatch (displayItemWeight "Apple Pie (250 g)").1 = false ∧
      displayItemWeight ((displayItemWeight "Apple Pie (250 g)").1) =
        ((displayItemWeight "Apple Pie (250 g)").1, "", "")) :=
  ⟨⟨by decide,
    (C1_extraction_idempotent_when_clean "BREAKFAST" "Egg McMuffin (135 g)").1 (by decide)⟩,
   ⟨by decide,
    (C1_extraction_idempotent_when_clean "BREAKFAST" "Apple Pie (250 g)").2 (by decide)⟩⟩

/-! ### Pattern 4 on names of the form `"<N> oz (<M> g)"` -/

theorem takeWhile_append_all {p : Char → Bool} {a b : List Char}
    (ha : ∀ c ∈ a, p c = true) (hb : headFails p b) :
    (a ++ b).takeWhile p = a := by
  induction a with
  | nil =>
    cases b with
    | nil => rfl
    | cons c cs =>
      simp only [headFails] at hb
      simp [List.takeWhile_cons, hb]
  | cons x xs ih =>
    have hx : p x = true := ha x (List.mem_cons_self x xs)
    simp only [List.cons_append, List.takeWhile_cons, hx, if_true]
    rw [ih (fun c hc => ha c (List.mem_cons_of_mem _ hc))]

theorem dropWhile_append_all {p : Char → Bool} {a b : List Char}
    (ha : ∀ c ∈ a, p c = true) (hb : headFails p b) :
    (a ++ b).dropWhile p = b := by
  induction a with
  | nil =>
    cases b with
    | nil => rfl
    | cons c cs =>
      simp only [headFails] at hb
      simp [List.dropWhile_cons, hb]
  | cons x xs ih =>
    have hx : p x = true := ha x (List.mem_cons_self x xs)
    simp only [List.cons_append, List.dropWhile_cons, hx, if_true]
    exact ih (fun c hc => ha c (List.mem_cons_of_mem _ hc))

theorem takeDigits1_append {a b : List Char} (hne : a ≠ [])
    (ha : ∀ c ∈ a, c.isDigit = true) (hb : headFails Char.isDigit b) :
    takeDigits1 (a ++ b) = some (a, b) := by
  unfold takeDigits1
  rw [takeWhile_append_all ha hb, dropWhile_append_all ha hb]
  simp [hne]

/-- Greedy `\d+\.?\d*` consumes exactly a numeral prefix when what follows
starts with neither a digit nor a dot. -/
theorem takeNum_numeral_append (N rest : List Char)
    (hN : IsNumeral N) (hr : headFails digitDot rest) :
    takeNum (N ++ rest) = some (N, rest) := by
  obtain ⟨d1, d2, h1, h2, h3, hN⟩ := hN
  have hrdig : headFails Char.isDigit rest := by
    cases rest with
    | nil => trivial
    | cons c cs =>
      simp only [headFails, digitDot, Bool.or_eq_false_iff] at hr ⊢
      exact hr.1
  have hrdot : ∀ c cs, rest = c :: cs → c ≠ '.' := by
    intro c cs hc
    subst hc
    simp only [headFails, digitDot, Bool.or_eq_false_iff, beq_eq_false_iff_ne] at hr
    exact hr.2
  cases hN with
  | inl h =>
    subst h
    unfold takeNum
    rw [takeDigits1_append h1 h2 hrdig]
    cases rest with
    | nil => rfl
    | cons c cs =>
      simp [hrdot c cs rfl]
  | inr h =>
    subst h
    unfold takeNum
    have hassoc : (d1 ++ '.' :: d2) ++ rest = d1 ++ ('.' :: (d2 ++ rest)) := by
      simp [List.append_assoc]
    rw [hassoc]
    rw [takeDigits1_append h1 h2 (by simp [headFails] : headFails Char.isDigit ('.' :: (d2 ++ rest)))]
    dsimp only
    rw [if_pos rfl, takeWhile_append_all h3 hrdig, dropWhile_append_all h3 hrdig]

/-- Every suffix produced by `takeDigits1` is a sublist of the input. -/
theorem takeDigits1_sublist {l d r : List Char} (h : takeDigits1 l = some (d, r)) :
    r.Sublist l := by
  unfold takeDigits1 at h
  by_cases he : (l.takeWhile Char.isDigit).isEmpty
  · simp [he] at h
  · simp only [he, if_false] at h
    cases h
    exact List.dropWhile_sublist _

/-- Every suffix produced by `takeNum` is a sublist of the input. -/
theorem takeNum_sublist {l n r : List Char} (h : takeNum l = some (n, r)) :
    r.Sublist l := by
  unfold takeNum at h
  cases htd : takeDigits1 l with
  | none => rw [htd] at h; cases h
  | some dr =>
    obtain ⟨d, r1⟩ := dr
    rw [htd] at h
    dsimp only at h
    have hsub1 : r1.Sublist l := takeDigits1_sublist htd
    cases r1 with
    | nil =>
      simp only [Option.some_inj, Prod.mk.injEq] at h
      rw [← h.2]
      exact hsub1
    | cons c r2 =>
      dsimp only at h
      have hsub2 : r2.Sublist l := (List.sublist_cons_self c r2).trans hsub1
      by_cases hc : c = '.'
      · subst hc
        rw [if_pos rfl] at h
        simp only [Option.some_inj, Prod.mk.injEq] at h
        rw [← h.2]
        exact (List.dropWhile_sublist _).trans hsub2
      · rw [if_neg hc] at h
        simp only [Option.some_inj, Prod.mk.injEq] at h
        rw [← h.2]
        exact hsub1

/-- Patterns 1 and 3 both require a literal `f`; on a string containing no `f`
(in either case) they can match nowhere. -/
theorem matchP1_none (l : List Char) (h : ∀ c ∈ l, c ≠ 'f' ∧ c ≠ 'F') :
    matchP1 l = none := by
  unfold matchP1
  cases htn : takeNum l with
  | none => simp
  | some nr =>
    obtain ⟨n, r⟩ := nr
    have hr : r.Sublist l := takeNum_sublist htn
    have hsr : (skipSpaces r).Sublist l := (List.dropWhile_sublist _).trans hr
    cases hss : skipSpaces r with
    | nil => simp [hss, litCI]
    | cons c cs =>
      have hcmem : c ∈ skipSpaces r := by rw [hss]; exact List.mem_cons_self c cs
      have hc := hsr.subset hcmem
      have h1 : c ≠ 'f' := (h c hc).1
      have h2 : c ≠ 'F' := (h c hc).2
      simp [hss, litCI, h1, h2]

theorem matchP3_none (l : List Char) (h : ∀ c ∈ l, c ≠ 'f' ∧ c ≠ 'F') :
    matchP3 l = none := by
  unfold matchP3
  cases htn : takeNum l with
  | none => simp
  | some nr =>
    obtain ⟨n, r⟩ := nr
    have hr : r.Sublist l := takeNum_sublist htn
    have hsr : (skipSpaces r).Sublist l := (List.dropWhile_sublist _).trans hr
    cases hss : skipSpaces r with
    | nil => simp [hss, litCI]
    | cons c cs =>
      have hcmem : c ∈ skipSpaces r := by rw [hss]; exact List.mem_cons_self c cs
      have hc := hsr.subset hcmem
      have h1 : c ≠ 'f' := (h c hc).1
      have h2 : c ≠ 'F' := (h c hc).2
      simp [hss, litCI, h1, h2]

theorem matchP2_none (l : List Char) (h : ∀ c ∈ l, c ≠ 'f' ∧ c ≠ 'F') :
    matchP2 l = none := by
  unfold matchP2
  cases l with
  | nil => rfl
  | cons c cs =>
    by_cases hc : c = '('
    · subst hc
      cases htn : takeNum cs with
      | none => simp [lit, htn]
      | some nr =>
        obtain ⟨n, r⟩ := nr
        have hr : r.Sublist cs := takeNum_sublist htn
        have hsr : (skipSpaces r).Sublist cs := (List.dropWhile_sublist _).trans hr
        cases hss : skipSpaces r with
        | nil => simp [lit, htn, hss, litCI]
        | cons x xs =>
          have hxmem : x ∈ skipSpaces r := by rw [hss]; exact List.mem_cons_self x xs
          have hx : x ∈ '(' :: cs := List.mem_cons_of_mem _ (hsr.subset hxmem)
          have h1 : x ≠ 'f' := (h x hx).1
          have h2 : x ≠ 'F' := (h x hx).2
          simp [lit, htn, hss, litCI, h1, h2]
    · have hc' : (c == '(') = false := beq_eq_false_iff_ne.mpr hc
      simp [lit, hc']

/-- A matcher that fails on every character list whose members satisfy `Q`
is found nowhere by the leftmost search on such a list. -/
theorem searchWith_none_of_pred {α : Type} (m : List Char → Option (α × List Char))
    (Q : Char → Prop) (hm : ∀ t, (∀ c ∈ t, Q c) → m t = none) :
    ∀ l, (∀ c ∈ l, Q c) → searchWith m l = none := by
  intro l
  induction l with
  | nil =>
    intro h
    simp [searchWith, hm [] (by intro c hc; cases hc)]
  | cons c cs ih =>
    intro h
    have h1 := hm _ h
    have h2 := ih (fun x hx => h x (List.mem_cons_of_mem _ hx))
    simp [searchWith, h1, h2]

/-- A matcher succeeding at position 0 is what the leftmost search returns. -/
theorem searchWith_of_match {α : Type} (m : List Char → Option (α × List Char))
    (l : List Char) {a : α} {r : List Char} (h : m l = some (a, r)) :
    searchWith m l = some ([], a, r) := by
  cases l with
  | nil => simp [searchWith, h]
  | cons c cs => simp [searchWith, h]

theorem skipSpaces_cons_of_space {c : Char} (h : jsSpace c = true) (l : List Char) :
    skipSpaces (c :: l) = skipSpaces l := by
  simp [skipSpaces, List.dropWhile_cons, h]

theorem skipSpaces_cons_of_nospace {c : Char} (h : jsSpace c = false) (l : List Char) :
    skipSpaces (c :: l) = c :: l := by
  simp [skipSpaces, List.dropWhile_cons, h]

/-- Pattern 4 consumes a whole name of the form `"<N> oz (<M> g)"` exactly,
capturing the ounce numeral and the gram digits. -/
theorem matchP4_ozg (N M : List Char) (hN : IsNumeral N) (hM1 : M ≠ [])
    (hM2 : ∀ c ∈ M, c.isDigit = true) :
    matchP4 (N ++ ' ' :: 'o' :: 'z' :: ' ' :: '(' :: (M ++ [' ', 'g', ')'])) =
      some ((N, M), []) := by
  have htn : takeNum (N ++ ' ' :: 'o' :: 'z' :: ' ' :: '(' :: (M ++ [' ', 'g', ')'])) =
      some (N, ' ' :: 'o' :: 'z' :: ' ' :: '(' :: (M ++ [' ', 'g', ')'])) :=
    takeNum_numeral_append N _ hN (by show digitDot ' ' = false; decide)
  have s1 : skipSpaces (' ' :: 'o' :: 'z' :: ' ' :: '(' :: (M ++ [' ', 'g', ')'])) =
      'o' :: 'z' :: ' ' :: '(' :: (M ++ [' ', 'g', ')']) := by
    rw [skipSpaces_cons_of_space (by decide), skipSpaces_cons_of_nospace (by decide)]
  have s2 : skipSpaces (' ' :: '(' :: (M ++ [' ', 'g', ')'])) =
      '(' :: (M ++ [' ', 'g', ')']) := by
    rw [skipSpaces_cons_of_space (by decide), skipSpaces_cons_of_nospace (by decide)]
  have htd : takeDigits1 (M ++ [' ', 'g', ')']) = some (M, [' ', 'g', ')']) :=
    takeDigits1_append hM1 hM2 (by show Char.isDigit ' ' = false; decide)
  have s3 : skipSpaces [' ', 'g', ')'] = ['g', ')'] := by decide
  unfold matchP4
  simp [htn, s1, s2, s3, htd, litCI, lit]

/-- C4.  On every whole name of the form `"<N> oz (<M> g)"` (`N` a numeral, `M`
digits; such a name contains no `f`, so no earlier fl-oz pattern can match) the
manager cascade consumes the whole name via pattern 4 and reports the ounce
quantity `N oz` for the beverage-like categories `DESSERTSHAKE`, `CONDIMENT`
and `BEVERAGE`, and the gram quantity `M g` for every other category; in
particular `"8.9 oz (251 g)"` yields `8.9 oz` under `BEVERAGE` and `251 g`
under `SNACKSIDE` (see the witness). -/
theorem C4_oz_grams_by_category (N M : List Char) (category : String)
    (hN : IsNumeral N) (hM1 : M ≠ []) (hM2 : ∀ c ∈ M, c.isDigit = true) :
    (beverageLike category = true →
      renderItemWeight category
          (String.mk (N ++ ' ' :: 'o' :: 'z' :: ' ' :: '(' :: (M ++ [' ', 'g', ')']))) =
        ("", Qty.oz (String.mk N))) ∧
    (beverageLike category = false →
      renderItemWeight category
          (String.mk (N ++ ' ' :: 'o' :: 'z' :: ' ' :: '(' :: (M ++ [' ', 'g', ')']))) =
        ("", Qty.g (String.mk M))) := by
  have hNf : ∀ c ∈ N, c ≠ 'f' ∧ c ≠ 'F' := by
    obtain ⟨d1, d2, h1', h2', h3', hN'⟩ := hN
    intro c hc
    have hdig : c.isDigit = true ∨ c = '.' := by
      cases hN' with
      | inl h => subst h; exact Or.inl (h2' c hc)
      | inr h =>
        subst h
        rcases List.mem_append.mp hc with h | h
        · exact Or.inl (h2' c h)
        · rcases List.mem_cons.mp h with h | h
          · exact Or.inr h
          · exact Or.inl (h3' c h)
    rcases hdig with h | h
    · exact ⟨by rintro rfl; exact absurd h (by decide),
             by rintro rfl; exact absurd h (by decide)⟩
    · subst h; exact ⟨by decide, by decide⟩
  have hMf : ∀ c ∈ M, c ≠ 'f' ∧ c ≠ 'F' := fun c hc =>
    ⟨by rintro rfl; exact absurd (hM2 'f' hc) (by decide),
     by rintro rfl; exact absurd (hM2 'F' hc) (by decide)⟩
  have hnoF : ∀ c ∈ N ++ ' ' :: 'o' :: 'z' :: ' ' :: '(' :: (M ++ [' ', 'g', ')']),
      c ≠ 'f' ∧ c ≠ 'F' := by
    intro c hc
    rcases List.mem_append.mp hc with h | h
    · exact hNf c h
    · rcases List.mem_cons.mp h with rfl | h
      · exact ⟨by decide, by decide⟩
      rcases List.mem_cons.mp h with rfl | h
      · exact ⟨by decide, by decide⟩
      rcases List.mem_cons.mp h with rfl | h
      · exact ⟨by decide, by decide⟩
      rcases List.mem_cons.mp h with rfl | h
      · exact ⟨by decide, by decide⟩
      rcases List.mem_cons.mp h with rfl | h
      · exact ⟨by decide, by decide⟩
      rcases List.mem_append.mp h with h | h
      · exact hMf c h
      · rcases List.mem_cons.mp h with rfl | h
        · exact ⟨by decide, by decide⟩
        rcases List.mem_cons.mp h with rfl | h
        · exact ⟨by decide, by decide⟩
        rcases List.mem_cons.mp h with rfl | h
        · exact ⟨by decide, by decide⟩
        cases h
  have hs1 : searchWith matchP1 (N ++ ' ' :: 'o' :: 'z' :: ' ' :: '(' :: (M ++ [' ', 'g', ')'])) = none :=
    searchWith_none_of_pred matchP1 _ matchP1_none _ hnoF
  have hs2 : searchWith matchP2 (N ++ ' ' :: 'o' :: 'z' :: ' ' :: '(' :: (M ++ [' ', 'g', ')'])) = none :=
    searchWith_none_of_pred matchP2 _ matchP2_none _ hnoF
  have hs3 : searchWith matchP3 (N ++ ' ' :: 'o' :: 'z' :: ' ' :: '(' :: (M ++ [' ', 'g', ')'])) = none :=
    searchWith_none_of_pred matchP3 _ matchP3_none _ hnoF
  have hs4 : searchWith matchP4 (N ++ ' ' :: 'o' :: 'z' :: ' ' :: '(' :: (M ++ [' ', 'g', ')'])) =
      some ([], (N, M), []) :=
    searchWith_of_match matchP4 _ (matchP4_ozg N M hN hM1 hM2)
  have htl : (String.mk (N ++ ' ' :: 'o' :: 'z' :: ' ' :: '(' :: (M ++ [' ', 'g', ')']))).toList =
      N ++ ' ' :: 'o' :: 'z' :: ' ' :: '(' :: (M ++ [' ', 'g', ')']) := rfl
  have hmk : String.mk (trimL []) = "" := rfl
  constructor
  · intro hb
    rw [renderItemWeight]
    rw [htl, hs1, hs2, hs3, hs4]
    simp [hb, hmk]
  · intro hb
    rw [renderItemWeight]
    rw [htl, hs1, hs2, hs3, hs4]
    simp [hb, hmk]

/-- Witness for `C4_oz_grams_by_category`: the spec's two examples, obtained by
instantiating the theorem at `N = "8.9"`, `M = "251"`. -/
theorem C4_oz_grams_by_category_witness :
    renderItemWeight "BEVERAGE" "8.9 oz (251 g)" = ("", Qty.oz "8.9") ∧
    renderItemWeight "SNACKSIDE" "8.9 oz (251 g)" = ("", Qty.g "251") := by
  have h1 := (C4_oz_grams_by_category ['8', '.', '9'] ['2', '5', '1'] "BEVERAGE"
      ⟨['8'], ['9'], by decide, by decide, by decide, Or.inr rfl⟩ (by decide) (by decide)).1
      (by decide)
  have h2 := (C4_oz_grams_by_category ['8', '.', '9'] ['2', '5', '1'] "SNACKSIDE"
      ⟨['8'], ['9'], by decide, by decide, by decide, Or.inr rfl⟩ (by decide) (by decide)).2
      (by decide)
  exact ⟨h1, h2⟩

/-- C9.  The manager-view and public-view weight cascades are not extensionally
equivalent: on the name `"8.9 oz (251 g)"` with the beverage-like category
`BEVERAGE`, the manager cascade reports the ounce quantity `8.9 oz` while the
public listing displays the gram quantity `251 g` (its combined oz+grams
pattern always prefers the gram group). -/
theorem C9_cascades_not_equivalent :
    (renderItemWeight "BEVERAGE" "8.9 oz (251 g)").2 = Qty.oz "8.9" ∧
    displayItemQty "8.9 oz (251 g)" = Qty.g "251" ∧
    (renderItemWeight "BEVERAGE" "8.9 oz (251 g)").2 ≠ displayItemQty "8.9 oz (251 g)" := by
  decide

/-! ### String helpers -/

theorem string_eq_empty_of_length (b : String) (h : b.length = 0) : b = "" := by
  cases b with
  | mk data =>
    have hd : data = [] := List.length_eq_zero.mp h
    rw [hd]

theorem append_ne_empty_right (a b : String) (hb : b ≠ "") : a ++ b ≠ "" := by
  intro h
  apply hb
  have hlen := congrArg String.length h
  rw [String.length_append] at hlen
  have h0 : ("" : String).length = 0 := rfl
  rw [h0] at hlen
  exact string_eq_empty_of_length b (by omega)

/-- C3.  `saveItem` routes on the presence of an identifier: a record whose
`id` is a non-empty string is sent as `PUT /data/{id}`, and a record whose
`id` is absent, `null` or empty (JavaScript-falsy) is sent as `POST /data`. -/
theorem C3_saveItem_routing (data : List (String × JSVal)) (s : String) :
    (alookup data "id" = some (JSVal.str s) → s ≠ "" →
      saveItemRequest data = { method := "PUT", url := "/data/" ++ s }) ∧
    (jsTruthy (alookup data "id") = false →
      saveItemRequest data = { method := "POST", url := "/data" }) := by
  constructor
  · intro hid hs
    unfold saveItemRequest
    rw [hid]
    simp [jsTruthy, jsValToString, hs]
  · intro hfalse
    unfold saveItemRequest
    rw [hfalse]
    simp

/-- Witness for `C3_saveItem_routing`: a record with `id = "42"` produces
`PUT /data/42`; a record with no `id` key produces `POST /data`. -/
theorem C3_saveItem_routing_witness :
    saveItemRequest [("id", JSVal.str "42"), ("ITEM", JSVal.str "Fries")] =
      { method := "PUT", url := "/data/42" } ∧
    saveItemRequest [("ITEM", JSVal.str "Fries")] = { method := "POST", url := "/data" } := by
  constructor
  · exact ((C3_saveItem_routing [("id", JSVal.str "42"), ("ITEM", JSVal.str "Fries")] "42").1
      (by decide) (by decide)).trans (by decide)
  · exact (C3_saveItem_routing [("ITEM", JSVal.str "Fries")] "x").2 (by decide)

/-- C5.  A nutritional highlight is produced if and only if the metric tied to
the active filter crosses its threshold (protein ≥ 20, fiber ≥ 5, carbs ≤ 20,
sugar ≤ 10, calories ≤ 400, each parsed with `parseInt(...) || 0`); with no
active filter no highlight is produced. -/
theorem C5_nutritional_highlight (item : MenuItem) :
    getNutritionalHighlight item Option.none = "" ∧
    (getNutritionalHighlight item (some "high-protein") ≠ "" ↔ 20 ≤ parseIntOr0 item.PRO) ∧
    (getNutritionalHighlight item (some "gut-friendly") ≠ "" ↔ 5 ≤ parseIntOr0 item.FBR) ∧
    (getNutritionalHighlight item (some "low-carb") ≠ "" ↔ parseIntOr0 item.CARB ≤ 20) ∧
    (getNutritionalHighlight item (some "low-sugar") ≠ "" ↔ parseIntOr0 item.SGR ≤ 10) ∧
    (getNutritionalHighlight item (some "calorie-conscious") ≠ "" ↔
      parseIntOr0 item.CAL ≤ 400) := by
  refine ⟨rfl, ?_, ?_, ?_, ?_, ?_⟩
  · by_cases hp : (20 : Int) ≤ parseIntOr0 item.PRO
    · have hne := append_ne_empty_right (toString (parseIntOr0 item.PRO)) "g protein"
        (by decide)
      simp [getNutritionalHighlight, ge_iff_le, hp, hne]
    · simp [getNutritionalHighlight, ge_iff_le, hp]
  · by_cases hp : (5 : Int) ≤ parseIntOr0 item.FBR
    · have hne := append_ne_empty_right (toString (parseIntOr0 item.FBR)) "g fiber"
        (by decide)
      simp [getNutritionalHighlight, ge_iff_le, hp, hne]
    · simp [getNutritionalHighlight, ge_iff_le, hp]
  · by_cases hp : parseIntOr0 item.CARB ≤ 20
    · have hne := append_ne_empty_right (toString (parseIntOr0 item.CARB)) "g carbs"
        (by decide)
      simp [getNutritionalHighlight, hp, hne]
    · simp [getNutritionalHighlight, hp]
  · by_cases hp : parseIntOr0 item.SGR ≤ 10
    · have hne := append_ne_empty_right (toString (parseIntOr0 item.SGR)) "g sugar"
        (by decide)
      simp [getNutritionalHighlight, hp, hne]
    · simp [getNutritionalHighlight, hp]
  · by_cases hp : parseIntOr0 item.CAL ≤ 400
    · have hne := append_ne_empty_right (toString (parseIntOr0 item.CAL)) " cal"
        (by decide)
      simp [getNutritionalHighlight, hp, hne]
    · simp [getNutritionalHighlight, hp]

/-- C6.  The claim fails on the code: `getData` on a successful empty fetch
renders the "no data" message but returns before reassigning `allItems`, so a
previously non-empty in-memory list survives.  Concretely, from a state holding
one item, an empty successful fetch shows "no data" yet `allItems` is not
empty. -/
theorem C6_counterexample :
    (getData sampleState (FetchResult.ok [])).content = ContentView.noData ∧
    (getData sampleState (FetchResult.ok [])).allItems = [sampleItem] ∧
    (getData sampleState (FetchResult.ok [])).allItems ≠ [] := by
  refine ⟨rfl, rfl, by decide⟩

/-- C6 (amended).  A successful empty fetch renders the "no data" message and
leaves `allItems` unchanged (so the list is empty only if it was already
empty); the list is rebuilt wholesale on every successful fetch returning a
non-empty array. -/
theorem C6_empty_fetch_amended (st : ManagerState) :
    ((getData st (FetchResult.ok [])).content = ContentView.noData ∧
     (getData st (FetchResult.ok [])).allItems = st.allItems) ∧
    (∀ data : List MenuItem, data ≠ [] →
      (getData st (FetchResult.ok data)).allItems = data) := by
  refine ⟨⟨rfl, rfl⟩, ?_⟩
  intro data hd
  cases data with
  | nil => exact absurd rfl hd
  | cons a as => rfl

/-- Witness for `C6_empty_fetch_amended`: from the sample state, a successful
fetch of one item rebuilds the list. -/
theorem C6_empty_fetch_amended_witness :
    (getData sampleState (FetchResult.ok [sampleItem])).allItems = [sampleItem] :=
  (C6_empty_fetch_amended sampleState).2 [sampleItem] (by decide)

/-- C7.  Deletion is gated behind explicit confirmation: invoking `deleteItem`
shows the modal, attaches the listeners and issues no request; only the confirm
action appends the single `DELETE /data/{id}` request, the cancel action issues
none, and both resolutions detach the confirm/cancel listeners. -/
theorem C7_delete_confirmation (s : DeleteFlowState) (id : String) (resp : DeleteResponse) :
    ((deleteItemInvoke s).requests = s.requests ∧
     (deleteItemInvoke s).modalShown = true ∧
     (deleteItemInvoke s).listenersAttached = true) ∧
    ((handleConfirm id resp (deleteItemInvoke s)).requests =
        s.requests ++ [({ method := "DELETE", url := "/data/" ++ id } : Request)] ∧
     (handleConfirm id resp (deleteItemInvoke s)).listenersAttached = false) ∧
    ((handleCancel (deleteItemInvoke s)).requests = s.requests ∧
     (handleCancel (deleteItemInvoke s)).listenersAttached = false) := by
  refine ⟨⟨rfl, rfl, rfl⟩, ⟨?_, ?_⟩, ⟨rfl, rfl⟩⟩
  · cases resp <;> rfl
  · cases resp <;> rfl

/-- C8.  `saveItem` failure handling: a non-ok response surfaces the JSON
body's truthy `details` field, else its truthy `error` field, else the status
text, as a blocking alert, with no refresh; an unparsable error body falls back
to the status text; a rejected request alerts generically with no refresh; the
in-memory list is never touched by `saveItem` itself; success shows the toast
and triggers the refresh. -/
theorem C8_save_error_handling (st : ManagerState) (status : String)
    (body rbody : List (String × JSVal)) (d e : String) :
    (saveItemStep st (SaveResponse.ok rbody)).2 =
      { alert := Option.none, toast := some "Menu item saved successfully!",
        refreshed := true } ∧
    (alookup body "details" = some (JSVal.str d) → d ≠ "" →
      (saveItemStep st (SaveResponse.errJson status body)).2 =
        { alert := some ("Failed to save: " ++ d), toast := Option.none,
          refreshed := false }) ∧
    (jsTruthy (alookup body "details") = false →
      alookup body "error" = some (JSVal.str e) → e ≠ "" →
      (saveItemStep st (SaveResponse.errJson status body)).2 =
        { alert := some ("Failed to save: " ++ e), toast := Option.none,
          refreshed := false }) ∧
    (jsTruthy (alookup body "details") = false →
      jsTruthy (alookup body "error") = false →
      (saveItemStep st (SaveResponse.errJson status body)).2 =
        { alert := some ("Failed to save: " ++ status), toast := Option.none,
          refreshed := false }) ∧
    (saveItemStep st (SaveResponse.errNoJson status)).2 =
      { alert := some ("Failed to save: " ++ status), toast := Option.none,
        refreshed := false } ∧
    (saveItemStep st SaveResponse.reject).2 =
      { alert := some "An error occurred while saving", toast := Option.none,
        refreshed := false } ∧
    (∀ resp : SaveResponse, (saveItemStep st resp).1.allItems = st.allItems) := by
  refine ⟨rfl, ?_, ?_, ?_, rfl, rfl, fun resp => rfl⟩
  · intro hid hd
    show saveOutcome (SaveResponse.errJson status body) = _
    unfold saveOutcome
    dsimp only
    rw [hid]
    simp [jsTruthy, jsValToString, hd]
  · intro hdf hid he
    show saveOutcome (SaveResponse.errJson status body) = _
    unfold saveOutcome
    dsimp only
    rw [hid, hdf]
    simp [jsTruthy, jsValToString, he]
  · intro hdf hef
    show saveOutcome (SaveResponse.errJson status body) = _
    unfold saveOutcome
    dsimp only
    rw [hdf, hef]
    simp

/-- Witness for `C8_save_error_handling`: concrete error bodies exercising the
`details` branch, the `error` branch and the status-text fallback. -/
theorem C8_save_error_handling_witness :
    (saveItemStep sampleState
        (SaveResponse.errJson "500" [("details", JSVal.str "bad payload")])).2 =
      { alert := some "Failed to save: bad payload", toast := Option.none,
        refreshed := false } ∧
    (saveItemStep sampleState
        (SaveResponse.errJson "500" [("error", JSVal.str "nope")])).2 =
      { alert := some "Failed to save: nope", toast := Option.none,
        refreshed := false } ∧
    (saveItemStep sampleState (SaveResponse.errJson "500" [])).2 =
      { alert := some "Failed to save: 500", toast := Option.none,
        refreshed := false } := by
  refine ⟨?_, ?_, ?_⟩
  · exact ((C8_save_error_handling sampleState "500" [("details", JSVal.str "bad payload")]
      [] "bad payload" "x").2.1 (by decide) (by decide)).trans (by decide)
  · exact ((C8_save_error_handling sampleState "500" [("error", JSVal.str "nope")]
      [] "x" "nope").2.2.1 (by decide) (by decide) (by decide)).trans (by decide)
  · exact ((C8_save_error_handling sampleState "500" [] [] "x" "x").2.2.2.1
      (by decide) (by decide)).trans (by decide)

/-! ### Association-list and grouping lemmas -/

theorem alookup_of_mem_nodup {β : Type} :
    ∀ {cats : List (String × β)}, (cats.map Prod.fst).Nodup →
      ∀ {kv : String × β}, kv ∈ cats → alookup cats kv.1 = some kv.2 := by
  intro cats
  induction cats with
  | nil =>
    intro _ kv h
    cases h
  | cons e rest ih =>
    intro hnd kv h
    rw [List.map_cons, List.nodup_cons] at hnd
    rcases List.mem_cons.mp h with rfl | h'
    · obtain ⟨k', v'⟩ := kv
      simp [alookup]
    · have hne : e.1 ≠ kv.1 := fun heq => hnd.1 (heq ▸ List.mem_map_of_mem Prod.fst h')
      obtain ⟨k', v'⟩ := e
      simp only [alookup, if_neg hne]
      exact ih hnd.2 h'

theorem mem_of_alookup {β : Type} {cats : List (String × β)} {k : String} {b : β}
    (h : alookup cats k = some b) : (k, b) ∈ cats := by
  induction cats with
  | nil => cases h
  | cons e rest ih =>
    obtain ⟨k', v⟩ := e
    by_cases hk : k' = k
    · subst hk
      have hv : alookup ((k', v) :: rest) k' = some v := by simp [alookup]
      rw [hv] at h
      have hb : v = b := Option.some_inj.mp h
      subst hb
      exact List.mem_cons_self _ _
    · simp only [alookup, if_neg hk] at h
      exact List.mem_cons_of_mem _ (ih h)

theorem alookup_addToBucket_self (cats : List (String × List MenuItem)) (k : String)
    (it : MenuItem) :
    alookup (addToBucket cats k it) k = some ((alookup cats k).getD [] ++ [it]) := by
  induction cats with
  | nil => simp [addToBucket, alookup]
  | cons e rest ih =>
    obtain ⟨k', b⟩ := e
    by_cases h : k' = k
    · subst h
      simp [addToBucket, alookup]
    · simp [addToBucket, alookup, h, ih]

theorem alookup_addToBucket_ne (cats : List (String × List MenuItem)) (k k' : String)
    (it : MenuItem) (h : k' ≠ k) :
    alookup (addToBucket cats k it) k' = alookup cats k' := by
  induction cats with
  | nil => simp [addToBucket, alookup, Ne.symm h]
  | cons e rest ih =>
    obtain ⟨k0, b⟩ := e
    by_cases h0 : k0 = k
    · subst h0
      simp [addToBucket, alookup, Ne.symm h]
    · simp [addToBucket, alookup, h0, ih]

theorem keys_addToBucket (cats : List (String × List MenuItem)) (k : String) (it : MenuItem) :
    (addToBucket cats k it).map Prod.fst =
      if k ∈ cats.map Prod.fst then cats.map Prod.fst else cats.map Prod.fst ++ [k] := by
  induction cats with
  | nil => simp [addToBucket]
  | cons e rest ih =>
    obtain ⟨k0, b⟩ := e
    by_cases h0 : k0 = k
    · subst h0
      simp [addToBucket]
    · by_cases hm : k ∈ rest.map Prod.fst
      · simp [addToBucket, h0, ih, hm, Ne.symm h0]
      · simp [addToBucket, h0, ih, hm, Ne.symm h0]

theorem keys_nodup_addToBucket (cats : List (String × List MenuItem)) (k : String)
    (it : MenuItem) (h : (cats.map Prod.fst).Nodup) :
    ((addToBucket cats k it).map Prod.fst).Nodup := by
  rw [keys_addToBucket]
  by_cases hm : k ∈ cats.map Prod.fst
  · simpa [hm] using h
  · rw [if_neg hm, List.nodup_append]
    refine ⟨h, List.nodup_singleton k, ?_⟩
    intro a ha hb
    simp only [List.mem_singleton] at hb
    subst hb
    exact hm ha

theorem flatten_addToBucket (cats : List (String × List MenuItem)) (k : String)
    (it : MenuItem) :
    (((addToBucket cats k it).map Prod.snd).flatten).Perm
      ((cats.map Prod.snd).flatten ++ [it]) := by
  induction cats with
  | nil => simp [addToBucket]
  | cons e rest ih =>
    obtain ⟨k0, b⟩ := e
    by_cases h0 : k0 = k
    · subst h0
      have hab : addToBucket ((k0, b) :: rest) k0 it = (k0, b ++ [it]) :: rest := by
        simp [addToBucket]
      rw [hab]
      simp only [List.map_cons, List.flatten_cons, List.append_assoc]
      exact List.Perm.append_left b List.perm_append_comm
    · have hab : addToBucket ((k0, b) :: rest) k it = (k0, b) :: addToBucket rest k it := by
        simp [addToBucket, h0]
      rw [hab]
      simp only [List.map_cons, List.flatten_cons]
      have h1 := List.Perm.append_left b ih
      simpa [List.append_assoc] using h1

theorem alookup_groupFold (l : List MenuItem) :
    ∀ (acc : List (String × List MenuItem)) (k : String),
      alookup (l.foldl (fun cats it => addToBucket cats it.CATEGORY it) acc) k =
        match alookup acc k with
        | some b => some (b ++ l.filter (fun it => it.CATEGORY == k))
        | Option.none =>
          if (l.filter (fun it => it.CATEGORY == k)).isEmpty then Option.none
          else some (l.filter (fun it => it.CATEGORY == k)) := by
  induction l with
  | nil =>
    intro acc k
    cases h : alookup acc k <;> simp [h]
  | cons it rest ih =>
    intro acc k
    rw [List.foldl_cons, ih (addToBucket acc it.CATEGORY it) k]
    by_cases hc : it.CATEGORY = k
    · subst hc
      rw [alookup_addToBucket_self]
      have hf : (it :: rest).filter (fun x => x.CATEGORY == it.CATEGORY) =
          it :: rest.filter (fun x => x.CATEGORY == it.CATEGORY) := by
        simp [List.filter_cons]
      rw [hf]
      cases h : alookup acc it.CATEGORY <;> simp [h, List.append_assoc]
    · have hf : (it :: rest).filter (fun x => x.CATEGORY == k) =
          rest.filter (fun x => x.CATEGORY == k) := by
        simp [List.filter_cons, hc]
      rw [hf, alookup_addToBucket_ne _ _ _ _ (Ne.symm hc)]

theorem keys_nodup_groupFold (l : List MenuItem) :
    ∀ acc : List (String × List MenuItem), (acc.map Prod.fst).Nodup →
      ((l.foldl (fun cats it => addToBucket cats it.CATEGORY it) acc).map Prod.fst).Nodup := by
  induction l with
  | nil => intro acc h; exact h
  | cons it rest ih =>
    intro acc h
    rw [List.foldl_cons]
    exact ih _ (keys_nodup_addToBucket _ _ _ h)

theorem flatten_groupFold (l : List MenuItem) :
    ∀ acc : List (String × List MenuItem),
      ((((l.foldl (fun cats it => addToBucket cats it.CATEGORY it) acc).map Prod.snd).flatten).Perm
        ((acc.map Prod.snd).flatten ++ l)) := by
  induction l with
  | nil => intro acc; simp
  | cons it rest ih =>
    intro acc
    rw [List.foldl_cons]
    have h1 := ih (addToBucket acc it.CATEGORY it)
    have h2 : ((((addToBucket acc it.CATEGORY it).map Prod.snd).flatten) ++ rest).Perm
        (((acc.map Prod.snd).flatten ++ [it]) ++ rest) :=
      List.Perm.append_right rest (flatten_addToBucket _ _ _)
    have h3 := h1.trans h2
    simpa [List.append_assoc] using h3

/-- C10.  `createListings` partitions its input: each bucket of the category
grouping is exactly the order-preserving filter of the input by its key, the
keys are pairwise distinct (so every item lands in exactly one bucket, the one
keyed by its `CATEGORY`), the concatenation of the buckets is a permutation of
the input, every bucket is non-empty, and the rendered sections and filter
buttons are exactly the (all non-empty) buckets. -/
theorem C10_createListings_partition (items : List MenuItem) :
    (∀ kv ∈ groupByCategory items, kv.2 = items.filter (fun it => it.CATEGORY == kv.1)) ∧
    ((groupByCategory items).map Prod.fst).Nodup ∧
    (∀ it ∈ items, ∃ kv ∈ groupByCategory items, kv.1 = it.CATEGORY ∧ it ∈ kv.2) ∧
    ((((groupByCategory items).map Prod.snd).flatten).Perm items) ∧
    (∀ kv ∈ groupByCategory items, kv.2 ≠ []) ∧
    (createListings items).sections = groupByCategory items ∧
    (createListings items).filterButtons = (groupByCategory items).map Prod.fst := by
  have hchar : ∀ k, alookup (groupByCategory items) k =
      (if (items.filter (fun it => it.CATEGORY == k)).isEmpty then Option.none
       else some (items.filter (fun it => it.CATEGORY == k))) := by
    intro k
    have h := alookup_groupFold items [] k
    rw [groupByCategory]
    rw [h]
    rfl
  have hnd : ((groupByCategory items).map Prod.fst).Nodup :=
    keys_nodup_groupFold items [] (by simp)
  have hbucket : ∀ kv ∈ groupByCategory items,
      kv.2 = items.filter (fun it => it.CATEGORY == kv.1) := by
    intro kv hkv
    have h1 := alookup_of_mem_nodup hnd hkv
    have h2 := hchar kv.1
    rw [h1] at h2
    by_cases he : (items.filter (fun it => it.CATEGORY == kv.1)).isEmpty
    · rw [if_pos he] at h2; cases h2
    · rw [if_neg he] at h2; exact Option.some_inj.mp h2
  have hne : ∀ kv ∈ groupByCategory items, kv.2 ≠ [] := by
    intro kv hkv hnil
    have h1 := alookup_of_mem_nodup hnd hkv
    have h2 := hchar kv.1
    rw [h1] at h2
    by_cases he : (items.filter (fun it => it.CATEGORY == kv.1)).isEmpty
    · rw [if_pos he] at h2; cases h2
    · apply he
      have hfil : items.filter (fun it => it.CATEGORY == kv.1) = [] :=
        (hbucket kv hkv) ▸ hnil
      rw [hfil]
      rfl
  have hmem : ∀ it ∈ items, ∃ kv ∈ groupByCategory items, kv.1 = it.CATEGORY ∧ it ∈ kv.2 := by
    intro it hit
    have hfmem : it ∈ items.filter (fun x => x.CATEGORY == it.CATEGORY) :=
      List.mem_filter.mpr ⟨hit, by simp⟩
    have hfe : ¬ (items.filter (fun x => x.CATEGORY == it.CATEGORY)).isEmpty = true := by
      intro hq
      rw [List.isEmpty_iff] at hq
      rw [hq] at hfmem
      cases hfmem
    have h2 := hchar it.CATEGORY
    rw [if_neg hfe] at h2
    exact ⟨(it.CATEGORY, items.filter (fun x => x.CATEGORY == it.CATEGORY)),
      mem_of_alookup h2, rfl, hfmem⟩
  have hfilterall : (groupByCategory items).filter (fun kv => kv.2.length > 0) =
      groupByCategory items := by
    rw [List.filter_eq_self]
    intro kv hkv
    simp only [decide_eq_true_eq]
    exact List.length_pos.mpr (hne kv hkv)
  have hperm : (((groupByCategory items).map Prod.snd).flatten).Perm items := by
    have h := flatten_groupFold items []
    rw [groupByCategory]
    simpa using h
  refine ⟨hbucket, hnd, hmem, hperm, hne, ?_, ?_⟩
  · show (groupByCategory items).filter (fun kv => kv.2.length > 0) = groupByCategory items
    exact hfilterall
  · show ((groupByCategory items).filter (fun kv => kv.2.length > 0)).map Prod.fst =
      (groupByCategory items).map Prod.fst
    rw [hfilterall]

/-! ### Object-assignment lemmas and `getFormData` typing -/

theorem alookup_setKey_self {β : Type} (m : List (String × β)) (k : String) (v : β) :
    alookup (setKey m k v) k = some v := by
  induction m with
  | nil => simp [setKey, alookup]
  | cons e rest ih =>
    obtain ⟨k', v'⟩ := e
    by_cases h : k' = k
    · subst h
      simp [setKey, alookup]
    · simp [setKey, alookup, h, ih]

theorem alookup_setKey_ne {β : Type} (m : List (String × β)) (k k' : String) (v : β)
    (h : k' ≠ k) : alookup (setKey m k v) k' = alookup m k' := by
  induction m with
  | nil => simp [setKey, alookup, Ne.symm h]
  | cons e rest ih =>
    obtain ⟨k0, v0⟩ := e
    by_cases h0 : k0 = k
    · subst h0
      simp [setKey, alookup, Ne.symm h]
    · simp [setKey, alookup, h0, ih]

theorem alookup_foldl_setKey_ne {β : Type} (entries : List (String × β)) :
    ∀ (m : List (String × β)) (k : String), (∀ e ∈ entries, e.1 ≠ k) →
      alookup (entries.foldl (fun m e => setKey m e.1 e.2) m) k = alookup m k := by
  induction entries with
  | nil =>
    intro m k _
    rfl
  | cons e rest ih =>
    intro m k h
    rw [List.foldl_cons, ih _ k (fun x hx => h x (List.mem_cons_of_mem _ hx))]
    exact alookup_setKey_ne m e.1 k e.2 (Ne.symm (h e (List.mem_cons_self _ _)))

theorem alookup_foldl_setKey_mem {β : Type} (entries : List (String × β)) :
    ∀ (m : List (String × β)) (k : String) (v : β),
      ((entries.map Prod.fst).Nodup) → (k, v) ∈ entries →
      alookup (entries.foldl (fun m e => setKey m e.1 e.2) m) k = some v := by
  induction entries with
  | nil =>
    intro m k v _ h
    cases h
  | cons e rest ih =>
    intro m k v hnd hm
    rw [List.map_cons, List.nodup_cons] at hnd
    rw [List.foldl_cons]
    rcases List.mem_cons.mp hm with rfl | h'
    · rw [alookup_foldl_setKey_ne rest _ k
        (fun x hx heq => hnd.1 (by rw [← heq]; exact List.mem_map.mpr ⟨x, hx, rfl⟩))]
      exact alookup_setKey_self m k v
    · exact ih _ k v hnd.2 h'

theorem alookup_fromEntries_of_mem (entries : List (String × JSVal)) {k : String} {v : JSVal}
    (hnd : (entries.map Prod.fst).Nodup) (hm : (k, v) ∈ entries) :
    alookup (fromEntries entries) k = some v :=
  alookup_foldl_setKey_mem entries [] k v hnd hm

theorem alookup_fromEntries_of_notmem (entries : List (String × JSVal)) {k : String}
    (h : k ∉ entries.map Prod.fst) :
    alookup (fromEntries entries) k = Option.none := by
  rw [fromEntries, alookup_foldl_setKey_ne entries [] k
    (fun e he heq => h (heq ▸ List.mem_map_of_mem Prod.fst he))]
  rfl

theorem alookup_processInput_ne (m : List (String × JSVal)) (el : FormInput) (k : String)
    (h : el.name ≠ k) : alookup (processInput m el) k = alookup m k := by
  simp only [processInput]
  split_ifs <;> first | rfl | exact alookup_setKey_ne m el.name k _ (Ne.symm h)

theorem alookup_processSelect_ne (m : List (String × JSVal)) (el : SelectInput) (k : String)
    (h : el.name ≠ k) : alookup (processSelect m el) k = alookup m k := by
  simp only [processSelect]
  split_ifs <;> first | rfl | exact alookup_setKey_ne m el.name k _ (Ne.symm h)

theorem alookup_foldl_processInput_ne (l : List FormInput) :
    ∀ (m : List (String × JSVal)) (k : String), (∀ el ∈ l, el.name ≠ k) →
      alookup (l.foldl processInput m) k = alookup m k := by
  induction l with
  | nil =>
    intro m k _
    rfl
  | cons el rest ih =>
    intro m k h
    rw [List.foldl_cons, ih _ k (fun x hx => h x (List.mem_cons_of_mem _ hx)),
       alookup_processInput_ne m el k (h el (List.mem_cons_self _ _))]

theorem alookup_foldl_processSelect_ne (l : List SelectInput) :
    ∀ (m : List (String × JSVal)) (k : String), (∀ el ∈ l, el.name ≠ k) →
      alookup (l.foldl processSelect m) k = alookup m k := by
  induction l with
  | nil =>
    intro m k _
    rfl
  | cons el rest ih =>
    intro m k h
    rw [List.foldl_cons, ih _ k (fun x hx => h x (List.mem_cons_of_mem _ hx)),
       alookup_processSelect_ne m el k (h el (List.mem_cons_self _ _))]

/-- C2.  For a form whose control names are pairwise distinct, `getFormData`
maps every field by its input type: a checkbox yields its boolean checked
state; a number or range input yields its literal string value, or `null` when
blank; a date input yields the ISO-8601 date-time string derived from the date
value, or `null` when blank; a text input yields its string value, or `null`
when blank; a hidden input is passed through unmodified; a select yields the
selected value, or `null` when blank. -/
theorem C2_getFormData_typing (f : FormState)
    (hnd : (f.inputs.map FormInput.name ++ f.selects.map SelectInput.name).Nodup) :
    (∀ el ∈ f.inputs,
      (el.ty = "checkbox" →
        alookup (getFormData f) el.name = some (JSVal.bool el.checked)) ∧
      ((el.ty = "number" ∨ el.ty = "range") →
        alookup (getFormData f) el.name =
          some (if blankStr el.value then JSVal.null else JSVal.str el.value)) ∧
      (el.ty = "date" →
        alookup (getFormData f) el.name =
          some (if blankStr el.value then JSVal.null
                else JSVal.str (dateToISOString el.value))) ∧
      (el.ty = "text" →
        alookup (getFormData f) el.name =
          some (if blankStr el.value then JSVal.null else JSVal.str el.value)) ∧
      (el.ty = "hidden" →
        alookup (getFormData f) el.name = some (JSVal.str el.value))) ∧
    (∀ el ∈ f.selects,
      alookup (getFormData f) el.name =
        some (if blankStr el.value then JSVal.null else JSVal.str el.value)) := by
  obtain ⟨hnodI, hnodS, hdisj⟩ := List.nodup_append.mp hnd
  have hfiltmap : (((f.inputs.filter (fun el => el.ty != "checkbox" || el.checked)).map
      (fun el => (el.name, JSVal.str el.value))).map Prod.fst) =
      (f.inputs.filter (fun el => el.ty != "checkbox" || el.checked)).map FormInput.name := by
    rw [List.map_map]
    rfl
  have hselmap : ((f.selects.map (fun el => (el.name, JSVal.str el.value))).map Prod.fst) =
      f.selects.map SelectInput.name := by
    rw [List.map_map]
    rfl
  have hentkeys : ((formDataEntries f).map Prod.fst).Nodup := by
    unfold formDataEntries
    rw [List.map_append, hfiltmap, hselmap, List.nodup_append]
    refine ⟨List.Nodup.sublist (List.Sublist.map FormInput.name (List.filter_sublist f.inputs))
      hnodI, hnodS, ?_⟩
    intro a ha hb
    obtain ⟨x, hx, hxa⟩ := List.mem_map.mp ha
    exact hdisj (List.mem_map.mpr ⟨x, (List.mem_filter.mp hx).1, hxa⟩) hb
  constructor
  · intro el hin
    have hnameI : el.name ∈ f.inputs.map FormInput.name := List.mem_map.mpr ⟨el, hin, rfl⟩
    have hselne : ∀ x ∈ f.selects, x.name ≠ el.name :=
      fun x hx heq => hdisj hnameI (List.mem_map.mpr ⟨x, hx, heq⟩)
    obtain ⟨l1, l2, hsplit⟩ := List.append_of_mem hin
    have hnodI' := hnodI
    rw [hsplit, List.map_append, List.map_cons] at hnodI'
    obtain ⟨hn1, hn2c, hd12⟩ := List.nodup_append.mp hnodI'
    have hel2 : el.name ∉ l2.map FormInput.name := (List.nodup_cons.mp hn2c).1
    have hel1 : el.name ∉ l1.map FormInput.name :=
      fun hm => hd12 hm (List.mem_cons_self _ _)
    have hl1ne : ∀ x ∈ l1, x.name ≠ el.name :=
      fun x hx heq => hel1 (List.mem_map.mpr ⟨x, hx, heq⟩)
    have hl2ne : ∀ x ∈ l2, x.name ≠ el.name :=
      fun x hx heq => hel2 (List.mem_map.mpr ⟨x, hx, heq⟩)
    have hfold : alookup (getFormData f) el.name =
        alookup (processInput (l1.foldl processInput (fromEntries (formDataEntries f))) el)
          el.name := by
      unfold getFormData
      rw [alookup_foldl_processSelect_ne f.selects _ el.name hselne, hsplit,
        List.foldl_append, List.foldl_cons]
      exact alookup_foldl_processInput_ne l2 _ el.name hl2ne
    have hm1 : alookup (l1.foldl processInput (fromEntries (formDataEntries f))) el.name =
        alookup (fromEntries (formDataEntries f)) el.name :=
      alookup_foldl_processInput_ne l1 _ el.name hl1ne
    have hbaseT : (el.ty != "checkbox" || el.checked) = true →
        alookup (fromEntries (formDataEntries f)) el.name = some (JSVal.str el.value) := by
      intro hp
      apply alookup_fromEntries_of_mem _ hentkeys
      unfold formDataEntries
      exact List.mem_append_left _
        (List.mem_map.mpr ⟨el, List.mem_filter.mpr ⟨hin, hp⟩, rfl⟩)
    refine ⟨?_, ?_, ?_, ?_, ?_⟩
    · intro hty
      rw [hfold]
      simp [processInput, hty, alookup_setKey_self]
    · intro hty
      have hv : alookup (l1.foldl processInput (fromEntries (formDataEntries f))) el.name =
          some (JSVal.str el.value) := by
        rcases hty with hty | hty <;>
          exact hm1.trans (hbaseT (by rw [hty]; simp))
      rcases hty with hty | hty <;>
      · rw [hfold]
        by_cases hb : (el.value == "" || trimStr el.value == "") = true <;>
          simp [processInput, hty, hv, alookup_setKey_self, jsFalsyOrBlank, blankStr, hb]
    · intro hty
      have hv : alookup (l1.foldl processInput (fromEntries (formDataEntries f))) el.name =
          some (JSVal.str el.value) := hm1.trans (hbaseT (by rw [hty]; simp))
      rw [hfold]
      by_cases hb : (el.value == "" || trimStr el.value == "") = true <;>
        simp [processInput, hty, hv, alookup_setKey_self, jsFalsyOrBlank, blankStr,
          jsValToString, dateToISOString, hb]
    · intro hty
      have hv : alookup (l1.foldl processInput (fromEntries (formDataEntries f))) el.name =
          some (JSVal.str el.value) := hm1.trans (hbaseT (by rw [hty]; simp))
      rw [hfold]
      by_cases hb : (el.value == "" || trimStr el.value == "") = true <;>
        simp [processInput, hty, hv, alookup_setKey_self, jsFalsyOrBlank, blankStr, hb]
    · intro hty
      have hv : alookup (l1.foldl processInput (fromEntries (formDataEntries f))) el.name =
          some (JSVal.str el.value) := hm1.trans (hbaseT (by rw [hty]; simp))
      rw [hfold]
      simp [processInput, hty, hv]
  · intro el hin
    have hnameS : el.name ∈ f.selects.map SelectInput.name := List.mem_map.mpr ⟨el, hin, rfl⟩
    have hinputne : ∀ x ∈ f.inputs, x.name ≠ el.name :=
      fun x hx heq => hdisj (List.mem_map.mpr ⟨x, hx, heq⟩) hnameS
    obtain ⟨s1, s2, hsplit⟩ := List.append_of_mem hin
    have hnodS' := hnodS
    rw [hsplit, List.map_append, List.map_cons] at hnodS'
    obtain ⟨hn1, hn2c, hd12⟩ := List.nodup_append.mp hnodS'
    have hes2 : el.name ∉ s2.map SelectInput.name := (List.nodup_cons.mp hn2c).1
    have hes1 : el.name ∉ s1.map SelectInput.name :=
      fun hm => hd12 hm (List.mem_cons_self _ _)
    have hs1ne : ∀ x ∈ s1, x.name ≠ el.name :=
      fun x hx heq => hes1 (List.mem_map.mpr ⟨x, hx, heq⟩)
    have hs2ne : ∀ x ∈ s2, x.name ≠ el.name :=
      fun x hx heq => hes2 (List.mem_map.mpr ⟨x, hx, heq⟩)
    have hbase : alookup (fromEntries (formDataEntries f)) el.name =
        some (JSVal.str el.value) := by
      apply alookup_fromEntries_of_mem _ hentkeys
      unfold formDataEntries
      exact List.mem_append_right _ (List.mem_map.mpr ⟨el, hin, rfl⟩)
    have hjson1 : alookup (f.inputs.foldl processInput (fromEntries (formDataEntries f)))
        el.name = some (JSVal.str el.value) :=
      (alookup_foldl_processInput_ne f.inputs _ el.name hinputne).trans hbase
    have hs1v : alookup (s1.foldl processSelect
        (f.inputs.foldl processInput (fromEntries (formDataEntries f)))) el.name =
        some (JSVal.str el.value) :=
      (alookup_foldl_processSelect_ne s1 _ el.name hs1ne).trans hjson1
    unfold getFormData
    rw [hsplit, List.foldl_append, List.foldl_cons,
      alookup_foldl_processSelect_ne s2 _ el.name hs2ne]
    by_cases hb : (el.value == "" || trimStr el.value == "") = true <;>
      simp [processSelect, hs1v, jsFalsyOrBlank, blankStr, hb, alookup_setKey_self]

/-- Witness for `C2_getFormData_typing`: a concrete form exercising one field
of each kind (blank number, checked checkbox, non-blank text, non-blank date,
hidden id, blank select). -/
theorem C2_getFormData_typing_witness :
    alookup (getFormData wForm) "CAL" = some JSVal.null ∧
    alookup (getFormData wForm) "featured" = some (JSVal.bool true) ∧
    alookup (getFormData wForm) "ITEM" = some (JSVal.str "Big Mac") ∧
    alookup (getFormData wForm) "released" =
      some (JSVal.str "2024-01-15T00:00:00.000Z") ∧
    alookup (getFormData wForm) "id" = some (JSVal.str "") ∧
    alookup (getFormData wForm) "CATEGORY" = some JSVal.null := by
  have h := C2_getFormData_typing wForm (by decide)
  refine ⟨?_, ?_, ?_, ?_, ?_, ?_⟩
  · exact ((h.1 { name := "CAL", ty := "number", value := "", checked := false }
      (by decide)).2.1 (Or.inl rfl)).trans (by decide)
  · exact (h.1 { name := "featured", ty := "checkbox", value := "on", checked := true }
      (by decide)).1 rfl
  · exact ((h.1 { name := "ITEM", ty := "text", value := "Big Mac", checked := false }
      (by decide)).2.2.2.1 rfl).trans (by decide)
  · exact ((h.1 { name := "released", ty := "date", value := "2024-01-15", checked := false }
      (by decide)).2.2.1 rfl).trans (by decide)
  · exact (h.1 { name := "id", ty := "hidden", value := "", checked := false }
      (by decide)).2.2.2.2 rfl
  · exact (h.2 { name := "CATEGORY", value := "" } (by decide)).trans (by decide)

end Menu
